import Mathlib

/-
Verification of the tincture color library (src/color/mod.rs) against its
natural-language specification.  The Rust code is shallowly embedded: u8
channels become Nat, f32 values become Rat (every finite f32 is a rational,
and all comparisons and arithmetic the claims depend on are exact at the
inputs used), BigInt becomes Int, and fallible operations return Except.
Transcendental f32 operations (powf, cos, sin) and the LCH conversion are
abstracted as function parameters, so the theorems quantify over every
possible implementation of them.

Helpers living in src/color/utils.rs are not part of the sources; they are
modelled from the specification and carry a doc comment saying so.
-/

namespace Tincture

/-- Truncation of a rational toward zero, as Rust float-to-int casts do
before saturation. -/
def qtrunc (q : ℚ) : ℤ := if 0 ≤ q then ⌊q⌋ else ⌈q⌉

/-- Rust `f32 % f32`: remainder with the sign of the dividend. -/
def f32rem (a b : ℚ) : ℚ := a - b * (qtrunc (a / b) : ℚ)

/-- Rust `.floor() as u8`: floor, then the saturating cast to u8. -/
def f32_floor_as_u8 (q : ℚ) : ℕ := Int.toNat (min 255 ⌊q⌋)

/-- The f32 approximation of pi (`std::f32::consts::PI`), an exact rational. -/
def f32_pi : ℚ := 13176795 / 4194304

/-- The four-channel 8-bit color record of src/color/mod.rs.  Channels are
modelled as naturals holding u8 values. -/
structure Color where
  r : ℕ
  g : ℕ
  b : ℕ
  a : ℕ
deriving DecidableEq, Repr

/-- Tags naming the field reported by a range error. -/
inductive FieldTag where
  | xT
  | yT
  | zT
  | transparencyT
  | saturationT
  | valueT
  | lightnessT
  | lT
  | cT
  | tT
  | redT
  | greenT
  | blueT
  | alphaT
deriving DecidableEq, Repr

/-- The error taxonomy of the library (PyValueError / PyIndexError payloads,
keyed by kind as in section 7 of the spec). -/
inductive Err where
  | invalidRange : FieldTag → Err
  | invalidLength : Err
  | invalidHexGroup : ℕ → Err
  | outOfRange : ℕ → Err
  | invalidArgument : Err
  | divideByZero : Err
deriving DecidableEq, Repr

/-- Modelled from the spec: `find_invalid_percentage_range` lives in
src/color/utils.rs, which is absent from the sources.  Section 4.1: the
validator fails when `value < 0.0 || value > 1.0`, carrying the field name. -/
def find_invalid_percentage_range (value : ℚ) (field : FieldTag) : Except Err Unit :=
  if value < 0 ∨ value > 1 then .error (.invalidRange field) else .ok ()

/-- Modelled from the spec: `to_whole_rgb` lives in src/color/utils.rs, which
is absent from the sources.  Section 4.2: decimal components are scaled
linearly by 255 and cast to the u8 channels. -/
def to_whole_rgb (r g b a : ℚ) : Color :=
  ⟨f32_floor_as_u8 (r * 255), f32_floor_as_u8 (g * 255),
   f32_floor_as_u8 (b * 255), f32_floor_as_u8 (a * 255)⟩

/-- Value of a single hexadecimal digit, if the character is one. -/
def hexDigitVal (c : Char) : Option ℕ :=
  if 48 ≤ c.toNat ∧ c.toNat ≤ 57 then some (c.toNat - 48)
  else if 97 ≤ c.toNat ∧ c.toNat ≤ 102 then some (c.toNat - 87)
  else if 65 ≤ c.toNat ∧ c.toNat ≤ 70 then some (c.toNat - 55)
  else none

/-- Modelled from the spec: `interpret_to_hex` lives in src/color/utils.rs,
which is absent from the sources.  Section 4.2: each 2-digit group of the hex
string is parsed independently and a malformed group is an error. -/
def interpret_to_hex (s : List Char) (lo : ℕ) : Option ℕ :=
  match hexDigitVal (s.getD lo '!'), hexDigitVal (s.getD (lo + 1) '!') with
  | some hi, some lo2 => some (16 * hi + lo2)
  | _, _ => none

/-- The body of `from_hex` after the leading `#` has been removed, translated
from src/color/mod.rs lines 175-199.  The length guard is the source's
`adjusted_str.len() != 6 || adjusted_str.len() != 8`, and the alpha group is
read from positions 4..6 exactly as in the source. -/
def from_hex_digits (adjusted : List Char) : Except Err Color :=
  if adjusted.length ≠ 6 ∨ adjusted.length ≠ 8 then .error .invalidLength
  else
    let r := interpret_to_hex adjusted 0
    let g := interpret_to_hex adjusted 2
    let b := interpret_to_hex adjusted 4
    let a : Option ℕ := if adjusted.length = 8 then interpret_to_hex adjusted 4 else some 255
    match r, g, b, a with
    | some r, some g, some b, some a => .ok ⟨r, g, b, a⟩
    | none, _, _, _ => .error (.invalidHexGroup 1)
    | _, none, _, _ => .error (.invalidHexGroup 2)
    | _, _, none, _ => .error (.invalidHexGroup 3)
    | _, _, _, none => .error (.invalidHexGroup 4)

/-- `Color::from_hex` (src/color/mod.rs lines 169-200): strip an optional
leading `#`, then parse the digit groups. -/
def from_hex (hexString : List Char) : Except Err Color :=
  from_hex_digits
    (match hexString with
     | '#' :: rest => rest
     | other => other)

/-- Lowercase hex digit character for a value below 16. -/
def hexDigitChar (n : ℕ) : Char :=
  if n < 10 then Char.ofNat (48 + n) else Char.ofNat (87 + n)

/-- Digits of `n` in base 16, most significant first, empty for 0. -/
def hexCore : ℕ → List Char
  | 0 => []
  | n + 1 => hexCore ((n + 1) / 16) ++ [hexDigitChar ((n + 1) % 16)]
decreasing_by exact Nat.div_lt_self (Nat.succ_pos n) (by omega)

/-- Rust `format!` with the `\x7b:x?\x7d` specifier on a u8: lowercase hex
with no zero padding (`0` prints as `0`, `255` as `ff`). -/
def hexDebug (n : ℕ) : List Char :=
  if n = 0 then ['0'] else hexCore n

/-- `Color::to_hex` (src/color/mod.rs lines 601-609): `#` followed by the
unpadded lowercase hex of r, g, b and, when requested, a. -/
def to_hex (c : Color) (includeTransparency : Bool) : List Char :=
  let hexStr := '#' :: (hexDebug c.r ++ hexDebug c.g ++ hexDebug c.b)
  if includeTransparency then hexStr ++ hexDebug c.a else hexStr

lemma from_hex_digits_err (l : List Char) :
    from_hex_digits l = .error .invalidLength := by
  unfold from_hex_digits
  split
  · rfl
  · rename_i h
    push_neg at h
    omega

lemma from_hex_err (s : List Char) : from_hex s = .error .invalidLength := by
  unfold from_hex
  exact from_hex_digits_err _

/-- C1: the claim says `from_hex` succeeds on 6- or 8-digit hex strings
(optionally prefixed with `#`), e.g. `from_hex "#FF0000" = Color 255 0 0 255`.
In the source the length guard `len != 6 || len != 8` is always true, so
`from_hex` fails with `InvalidLength` on every input, including the spec's
own positive examples. -/
theorem from_hex_always_fails :
    (∀ s : List Char, from_hex s = .error .invalidLength) ∧
    from_hex "#FF0000".toList = .error .invalidLength ∧
    from_hex "#00000000".toList = .error .invalidLength ∧
    from_hex "ABC".toList = .error .invalidLength :=
  ⟨fun s => from_hex_err s, from_hex_err _, from_hex_err _, from_hex_err _⟩

/-- C2: the claim says `from_hex (to_hex c true) = c` for every color.  In
the source the round trip instead fails with `InvalidLength` for every color,
because `from_hex` rejects all lengths (and `to_hex` emits unpadded hex
digits in any case). -/
theorem from_hex_to_hex_never_roundtrips :
    ∀ c : Color, from_hex (to_hex c true) = .error .invalidLength :=
  fun c => from_hex_err (to_hex c true)

/-- `Color::__eq__` (src/color/mod.rs lines 754-756): compares r, b, g and a. -/
def py_eq (self other : Color) : Bool :=
  self.r == other.r && self.b == other.b && self.g == other.g && self.a == other.a

/-- `Color::__ne__` (src/color/mod.rs lines 757-759). -/
def py_ne (self other : Color) : Bool :=
  self.r != other.r || self.b != other.b || self.g != other.g || self.a != other.a

/-- C3 counterexample: the claim says two colors agreeing on r, g, b compare
equal regardless of alpha.  `Color 0 0 0 0` and `Color 0 0 0 1` agree on
r, g, b, yet `__eq__` is false and `__ne__` is true: alpha participates. -/
theorem py_eq_uses_alpha_counterexample :
    py_eq ⟨0, 0, 0, 0⟩ ⟨0, 0, 0, 1⟩ = false ∧
    py_ne ⟨0, 0, 0, 0⟩ ⟨0, 0, 0, 1⟩ = true := by
  decide

/-- C3 amended: `__eq__` compares all four channels, alpha included, and
`__ne__` is its pointwise negation. -/
theorem py_eq_all_four_channels (c1 c2 : Color) :
    (py_eq c1 c2 = true ↔ c1.r = c2.r ∧ c1.g = c2.g ∧ c1.b = c2.b ∧ c1.a = c2.a) ∧
    py_ne c1 c2 = !(py_eq c1 c2) := by
  constructor
  · simp [py_eq]
    tauto
  · simp [py_eq, py_ne, bne, Bool.not_and]

/-- Modelled from the spec: `wrap_around_bigint` lives in
src/color/utils.rs, which is absent from the sources.  Section 9: an
arbitrary-precision input is reduced to a fixed-width integer; the pair holds
the sign and the low 64 bits of the magnitude. -/
def wrap_around_bigint (x : ℤ) : Bool × ℕ :=
  (decide (x < 0), x.natAbs % (2 ^ 64))

/-- `Color::shift` (src/color/mod.rs lines 855-880): identity when
`places % 4 == 0` (truncated Rust remainder); otherwise the remainder is made
positive via `4 - adjusted` when negative, and the loop stores the old value
at `index` into position `(adjusted + index) % 4`. -/
def shift (c : Color) (places : ℤ) : Color :=
  if places.tmod 4 = 0 then c
  else
    let arr0 : List ℕ := [c.r, c.g, c.b, c.a]
    let adjusted0 : ℤ := places.tmod 4
    let adjusted : ℤ := if adjusted0 < 0 then 4 - adjusted0 else adjusted0
    let arr : List ℕ :=
      (List.range 4).foldl
        (fun (arr : List ℕ) (index : ℕ) =>
          arr.set (wrap_around_bigint ((adjusted + (index : ℤ)).tmod 4)).2
            (arr0.getD index 0))
        arr0
    ⟨arr.getD 0 0, arr.getD 1 0, arr.getD 2 0, arr.getD 3 0⟩

/-- C4: the claim says `shift n = shift (n emod 4)` (Euclidean remainder) and
that `shift (-1)` undoes `shift 1`.  In the source a negative remainder `m`
becomes `4 - m` (not `4 + m`), so `shift (-1)` rotates by 5 ≡ 1 instead of 3:
on `Color 1 2 3 4` it yields `Color 4 1 2 3` while `shift 3` (the Euclidean
reduction of −1, matching the claim's formula) yields `Color 2 3 4 1`, and
applying `shift (-1)` after `shift 1` gives `Color 3 4 1 2`, not the
original. -/
theorem shift_negative_diverges :
    shift ⟨1, 2, 3, 4⟩ (-1) = ⟨4, 1, 2, 3⟩ ∧
    shift ⟨1, 2, 3, 4⟩ ((-1).emod 4) = ⟨2, 3, 4, 1⟩ ∧
    shift (shift ⟨1, 2, 3, 4⟩ 1) (-1) = ⟨3, 4, 1, 2⟩ := by
  decide

/-- `Color::approx_equal` (src/color/mod.rs lines 573-595): the symmetric
field check is applied to the red channel three times; green and blue are
never compared. -/
def approx_equal (self other : Color) (diff : ℕ) (includeTransparency : Bool) : Bool :=
  let fieldOk : ℤ → ℤ → ℤ → Bool :=
    fun value value2 d => decide (value - d ≤ value2 ∧ value2 ≤ value + d)
  let d : ℤ := (diff : ℤ)
  let alphaPart : Bool :=
    if includeTransparency then fieldOk (self.a : ℤ) (other.a : ℤ) d else true
  fieldOk (self.r : ℤ) (other.r : ℤ) d &&
    fieldOk (self.r : ℤ) (other.r : ℤ) d &&
    fieldOk (self.r : ℤ) (other.r : ℤ) d && alphaPart

/-- C5: the claim says `approx_equal` returns true iff every one of r, g, b
(and optionally a) differs by at most the tolerance.  With tolerance 0 the
source returns true for colors whose green (or blue) channels differ by 255,
because it compares the red channel three times and never green or blue. -/
theorem approx_equal_ignores_green_blue :
    approx_equal ⟨0, 0, 0, 0⟩ ⟨0, 255, 0, 0⟩ 0 false = true ∧
    approx_equal ⟨0, 0, 0, 0⟩ ⟨0, 0, 255, 0⟩ 0 false = true := by
  decide

/-- `Color::from_xyz` (src/color/mod.rs lines 74-110).  The guards are
translated verbatim: the z guard is the source's `z < 0.0 && z > 108.883`
(a conjunction, unlike the x and y guards).  The f32 `powf(0.41666667)` used
by the gamma encode is abstracted as the parameter `pw`. -/
def from_xyz (pw : ℚ → ℚ) (x y z transparency : ℚ) : Except Err Color :=
  if x < 0 ∨ x > 95.047 then .error (.invalidRange .xT)
  else if y < 0 ∨ y > 100 then .error (.invalidRange .yT)
  else if z < 0 ∧ z > 108.883 then .error (.invalidRange .zT)
  else
    match find_invalid_percentage_range transparency .transparencyT with
    | .error e => .error e
    | .ok _ =>
      let x := x / 100
      let y := y / 100
      let z := z / 100
      let r := x * 3.2406 + y * (-1.5372) + z * (-0.4986)
      let g := x * (-0.9689) + y * 1.8758 + z * 0.0415
      let b := x * 0.0557 + y * (-0.204) + z * 1.057
      let r := if r > 0.0031308 then 1.055 * pw r - 0.055 else 12.92 * r
      let g := if g > 0.0031308 then 1.055 * pw g - 0.055 else 12.92 * g
      let b := if b > 0.0031308 then 1.055 * pw b - 0.055 else 12.92 * b
      .ok (to_whole_rgb r g b transparency)

/-- C6: the claim says `from_xyz` fails whenever z is outside [0, 108.883].
The source's z guard reads `z < 0.0 && z > 108.883`, which no value
satisfies, so z = 200 (with x = y = 0, transparency = 1) passes validation
and the conversion is performed, for every model `pw` of the f32 power
function.  The x guard, by contrast, does reject out-of-range input. -/
theorem from_xyz_z_guard_dead :
    ∀ pw : ℚ → ℚ,
      (∃ c, from_xyz pw 0 0 200 1 = .ok c) ∧
      from_xyz pw (-1) 0 0 1 = .error (.invalidRange .xT) := by
  intro pw
  constructor
  · unfold from_xyz
    rw [if_neg (by norm_num), if_neg (by norm_num), if_neg (by norm_num)]
    simp only [find_invalid_percentage_range]
    rw [if_neg (by norm_num)]
    exact ⟨_, rfl⟩
  · unfold from_xyz
    rw [if_pos (by norm_num)]

/-- Modelled from the spec: `color_to_hsv` lives in src/color/utils.rs,
which is absent from the sources.  Sections 4.2 and 4.5: value = max/255,
saturation = (max − min)/max (0 when max = 0), hue derived from the max/min
channel positions as an integer degree in [0, 360). -/
def color_to_hsv (c : Color) : ℕ × ℚ × ℚ :=
  let mx : ℕ := max c.r (max c.g c.b)
  let mn : ℕ := min c.r (min c.g c.b)
  let delta : ℚ := (mx : ℚ) - (mn : ℚ)
  let hq : ℚ :=
    if delta = 0 then 0
    else if mx = c.r then 60 * (((c.g : ℚ) - (c.b : ℚ)) / delta)
    else if mx = c.g then 60 * ((((c.b : ℚ) - (c.r : ℚ)) / delta) + 2)
    else 60 * ((((c.r : ℚ) - (c.g : ℚ)) / delta) + 4)
  let h : ℕ := (⌊hq⌋.emod 360).toNat
  let s : ℚ := if (mx : ℚ) = 0 then 0 else delta / (mx : ℚ)
  let v : ℚ := (mx : ℚ) / 255
  (h, s, v)

/-- `Color::from_hsv` (src/color/mod.rs lines 128-146), translated verbatim:
saturation, value and transparency are validated to [0, 1]; the hue is
reduced with `rem_euclid(360)` and divided by 360, and the sector index is
`(floored_h % 6.0).floor()` over the already-floored quotient. -/
def from_hsv (h : ℤ) (s v transparency : ℚ) : Except Err Color :=
  match find_invalid_percentage_range s .saturationT with
  | .error e => .error e
  | .ok _ =>
    match find_invalid_percentage_range v .valueT with
    | .error e => .error e
    | .ok _ =>
      match find_invalid_percentage_range transparency .transparencyT with
      | .error e => .error e
      | .ok _ =>
        let adjustedH : ℚ := ((h.emod 360 : ℤ) : ℚ) / 360
        let flooredH : ℚ := ((⌊adjustedH⌋ : ℤ) : ℚ)
        let diff : ℚ := adjustedH - flooredH
        let a : ℚ := v * (1 - s)
        let b : ℚ := v * (1 - diff * s)
        let c : ℚ := v * (1 - (1 - diff) * s)
        let index : ℕ := (⌊f32rem flooredH 6⌋).toNat
        let r2 : ℚ := [v, b, a, a, c, v].getD index 0
        let g2 : ℚ := [c, v, v, b, a, a].getD index 0
        let b2 : ℚ := [a, a, c, v, v, b].getD index 0
        .ok (to_whole_rgb r2 g2 b2 transparency)

/-- `Color::saturate` (src/color/mod.rs lines 497-504): factor 0 returns the
receiver; otherwise the HSV saturation is scaled by `factor + 1` and the
result of `from_hsv` is unwrapped.  The Rust `.unwrap()` panic is modelled
as `none`. -/
def saturate (c : Color) (factor : ℚ) : Option Color :=
  if factor = 0 then some c
  else
    let hsv := color_to_hsv c
    match from_hsv ((hsv.1 : ℤ)) (hsv.2.1 * (factor + 1)) hsv.2.2 ((c.a : ℚ) / 255) with
    | .ok col => some col
    | .error _ => none

/-- C7: the claim says `saturate` is total and never fails, in particular for
a positive factor on an already saturated color.  `Color 255 0 0 255` has HSV
saturation exactly 1; with factor 1 the scaled saturation 2 is rejected by
`from_hsv`'s [0, 1] validation and the source's `.unwrap()` panics (modelled
as `none`).  The factor = 0 no-op part of the claim does hold. -/
theorem saturate_panics_on_saturated :
    saturate ⟨255, 0, 0, 255⟩ 1 = none ∧ ∀ c : Color, saturate c 0 = some c := by
  constructor
  · norm_num [saturate, color_to_hsv, from_hsv, find_invalid_percentage_range]
  · intro c
    simp [saturate]

/-- `Color::adjust_temperature` (src/color/mod.rs lines 446-458): delta 0
returns immediately; otherwise delta is clamped to [−255, 255], reduced by
`wrap_around_bigint` to its magnitude and cast `as u16`, then added to red
and subtracted from blue in (wrapping, release-mode) u16 arithmetic before
`clamp(0, 255)`. -/
def adjust_temperature (c : Color) (temperature : ℤ) : Color :=
  if temperature = 0 then c
  else
    let clamped : ℤ :=
      if temperature > 255 then 255
      else if temperature < -255 then -255
      else temperature
    let adjustedTemp : ℕ := (wrap_around_bigint clamped).2 % (2 ^ 16)
    let r : ℕ := min ((c.r + adjustedTemp) % (2 ^ 16)) 255
    let b : ℕ := min (((c.b + 2 ^ 16) - adjustedTemp) % (2 ^ 16)) 255
    ⟨r, c.g, b, c.a⟩

/-- C8: the claim says blue becomes `clamp(blue − delta, 0, 255)` and that a
negative delta decreases red and increases blue.  In the source the u16
subtraction `blue − delta` underflows and wraps, so blue 5 with delta 10
clamps to 255 instead of 0; and `wrap_around_bigint` drops the sign of the
clamped delta, so delta −10 adds 10 to red and subtracts 10 from blue, the
same as delta +10. -/
theorem adjust_temperature_diverges :
    adjust_temperature ⟨100, 100, 5, 255⟩ 10 = ⟨110, 100, 255, 255⟩ ∧
    adjust_temperature ⟨100, 100, 100, 255⟩ (-10) = ⟨110, 100, 90, 255⟩ ∧
    adjust_temperature ⟨100, 100, 100, 255⟩ 0 = ⟨100, 100, 100, 255⟩ := by
  refine ⟨?_, ?_, by decide⟩ <;> decide

/-- Loop body of `Color::randomise` (src/color/mod.rs lines 506-541): each
entry carries the channel index, the receiver's current channel value and
the two bounds.  Both bounds present with start ≥ end is the index error
("Starting & Ending Bounds Are Out Of Range"); exactly one bound present is
the value error; both absent keeps the current value; otherwise a value is
sampled from the ambient generator, modelled by `rng index lo hi`. -/
def randomiseLoop (rng : ℕ → ℕ → ℕ → ℕ) :
    List (ℕ × ℕ × Option ℕ × Option ℕ) → Except Err (List ℕ)
  | [] => .ok []
  | (index, cur, s, e) :: rest =>
    match s, e with
    | some v1, some v2 =>
      if v1 ≥ v2 then .error (.outOfRange index)
      else (randomiseLoop rng rest).map (fun vs => rng index v1 v2 :: vs)
    | none, none => (randomiseLoop rng rest).map (fun vs => cur :: vs)
    | _, _ => .error .invalidArgument

/-- `Color::randomise`: the four channels are processed in index order and
the results are read back into a color. -/
def randomise (c : Color) (s0 e0 s1 e1 s2 e2 s3 e3 : Option ℕ)
    (rng : ℕ → ℕ → ℕ → ℕ) : Except Err Color :=
  match randomiseLoop rng
      [(0, c.r, s0, e0), (1, c.g, s1, e1), (2, c.b, s2, e2), (3, c.a, s3, e3)] with
  | .error e => .error e
  | .ok vs => .ok ⟨vs.getD 0 0, vs.getD 1 0, vs.getD 2 0, vs.getD 3 0⟩

/-- Error reported by the first invalid entry of a bound list, if any:
this is the specification-side description of the loop's failure order. -/
def firstErr : List (ℕ × ℕ × Option ℕ × Option ℕ) → Option Err
  | [] => none
  | (index, _, s, e) :: rest =>
    match s, e with
    | some v1, some v2 =>
      if v1 ≥ v2 then some (.outOfRange index) else firstErr rest
    | none, none => firstErr rest
    | _, _ => some .invalidArgument

/-- Specification-side value of one channel when no entry is invalid: a
sampled value when both bounds are present, the receiver's value otherwise. -/
def sampleEntry (rng : ℕ → ℕ → ℕ → ℕ) : ℕ × ℕ × Option ℕ × Option ℕ → ℕ
  | (index, cur, s, e) =>
    match s, e with
    | some v1, some v2 => rng index v1 v2
    | _, _ => cur

lemma randomiseLoop_eq (rng : ℕ → ℕ → ℕ → ℕ)
    (l : List (ℕ × ℕ × Option ℕ × Option ℕ)) :
    randomiseLoop rng l =
      match firstErr l with
      | some err => .error err
      | none => .ok (l.map (sampleEntry rng)) := by
  induction l with
  | nil => rfl
  | cons head rest ih =>
    obtain ⟨index, cur, s, e⟩ := head
    cases s <;> cases e <;>
      simp only [randomiseLoop, firstErr, sampleEntry, List.map, ih]
    · cases h : firstErr rest <;> simp [Except.map]
    · rename_i v1 v2
      by_cases hv : v1 ≥ v2
      · simp [hv]
      · cases h : firstErr rest <;> simp [hv, h, Except.map]

/-- C9 counterexample: the claim says the call fails with `OutOfRange`
whenever some channel has both bounds present with start ≥ end.  Here the
green channel has bounds (5, 5), yet the call fails with `InvalidArgument`,
because the red channel's one-sided bounds are examined first. -/
theorem randomise_mixed_error :
    randomise ⟨0, 0, 0, 0⟩ (some 0) none (some 5) (some 5) none none none none
        (fun _ v1 _ => v1) = .error .invalidArgument ∧
    Err.invalidArgument ≠ Err.outOfRange 1 :=
  ⟨rfl, by decide⟩

/-- C9 amended: `randomise` examines the channels in index order and fails
at the first invalid one — `OutOfRange i` when channel i has both bounds
with start ≥ end, `InvalidArgument` when it has exactly one bound; when all
four channels are valid it succeeds, each both-present channel holding a
sampled value and each both-absent channel keeping the receiver's value. -/
theorem randomise_first_error_characterisation (c : Color)
    (s0 e0 s1 e1 s2 e2 s3 e3 : Option ℕ) (rng : ℕ → ℕ → ℕ → ℕ) :
    randomise c s0 e0 s1 e1 s2 e2 s3 e3 rng =
      match firstErr
          [(0, c.r, s0, e0), (1, c.g, s1, e1), (2, c.b, s2, e2), (3, c.a, s3, e3)] with
      | some err => .error err
      | none =>
        .ok ⟨sampleEntry rng (0, c.r, s0, e0), sampleEntry rng (1, c.g, s1, e1),
             sampleEntry rng (2, c.b, s2, e2), sampleEntry rng (3, c.a, s3, e3)⟩ := by
  unfold randomise
  rw [randomiseLoop_eq]
  cases h : firstErr
      [(0, c.r, s0, e0), (1, c.g, s1, e1), (2, c.b, s2, e2), (3, c.a, s3, e3)] <;>
    simp

/-- `Color::mlerp` (src/color/mod.rs lines 226-236): t is validated to
[0, 1], then each channel is `floor((1 − t)·start + t·end)`. -/
def mlerp (start endc : Color) (t : ℚ) : Except Err Color :=
  match find_invalid_percentage_range t .tT with
  | .error e => .error e
  | .ok _ =>
    let ti : ℚ := 1 - t
    .ok ⟨f32_floor_as_u8 (ti * (start.r : ℚ) + t * (endc.r : ℚ)),
         f32_floor_as_u8 (ti * (start.g : ℚ) + t * (endc.g : ℚ)),
         f32_floor_as_u8 (ti * (start.b : ℚ) + t * (endc.b : ℚ)),
         f32_floor_as_u8 (ti * (start.a : ℚ) + t * (endc.a : ℚ))⟩

/-- `Color::from_oklab` (src/color/mod.rs lines 202-224): the documented
matrix pair with cubed intermediates, floored to integer channels.  All the
arithmetic is polynomial, hence exact over ℚ. -/
def from_oklab (l a b transparency : ℚ) : Color :=
  let lNew : ℚ := l + 0.3963377774 * a + 0.2158037573 * b
  let aNew : ℚ := l - 0.1055613458 * a - 0.0638541728 * b
  let bNew : ℚ := l - 0.0894841775 * a - 1.2914855480 * b
  let lCubed : ℚ := lNew ^ 3
  let aCubed : ℚ := aNew ^ 3
  let bCubed : ℚ := bNew ^ 3
  let r : ℚ := 4.0767416621 * lCubed - 3.3077115913 * aCubed + 0.2309699292 * bCubed
  let g : ℚ := -1.2684380046 * lCubed + 2.6097574011 * aCubed - 0.3413193965 * bCubed
  let b2 : ℚ := -0.0041960863 * lCubed - 0.7034186147 * aCubed + 1.7076147010 * bCubed
  ⟨f32_floor_as_u8 r, f32_floor_as_u8 g, f32_floor_as_u8 b2,
   f32_floor_as_u8 (transparency * 255)⟩

/-- `Color::from_lch` (src/color/mod.rs lines 112-126), translated verbatim,
including the second guard's `l < 0.0 || c > 200.0` condition.  The f32
cosine and sine are abstracted as the parameters `cosf` and `sinf`. -/
def from_lch (cosf sinf : ℚ → ℚ) (l c : ℚ) (h : ℤ) (transparency : ℚ) :
    Except Err Color :=
  if l < 0 ∨ l > 100 then .error (.invalidRange .lT)
  else if l < 0 ∨ c > 200 then .error (.invalidRange .cT)
  else
    match find_invalid_percentage_range transparency .transparencyT with
    | .error e => .error e
    | .ok _ =>
      let hScoped : ℚ := ((h.emod 360 : ℤ) : ℚ) * (f32_pi / 180)
      let a : ℚ := cosf hScoped * c
      let b : ℚ := sinf hScoped * c
      .ok (from_oklab l a b transparency)

/-- `Color::clerp` (src/color/mod.rs lines 238-257): t is validated first,
both endpoints are converted to LCH, the components and alpha are
interpolated linearly and `from_lch` rebuilds the color.  `color_to_lch`
lives in the absent src/color/utils.rs and is abstracted as the parameter
`lchOf`; `cosf` and `sinf` model the f32 trigonometry inside `from_lch`. -/
def clerp (cosf sinf : ℚ → ℚ) (lchOf : Color → ℚ × ℚ × ℕ)
    (start endc : Color) (t : ℚ) : Except Err Color :=
  match find_invalid_percentage_range t .tT with
  | .error e => .error e
  | .ok _ =>
    let ls := lchOf start
    let le := lchOf endc
    let omt : ℚ := 1 - t
    let nl : ℚ := omt * ls.1 + t * le.1
    let nc : ℚ := omt * ls.2.1 + t * le.2.1
    let nh : ℚ := omt * ((ls.2.2 : ℕ) : ℚ) + t * ((le.2.2 : ℕ) : ℚ)
    let na : ℚ := omt * (start.a : ℚ) + t * (endc.a : ℚ)
    from_lch cosf sinf nl nc ⌊nh⌋ (na / 255)

/-- `Color::mlerp_inplace` (src/color/mod.rs lines 259-267), state-passing:
the pair holds the returned PyResult and the receiver's final state.  The
receiver's channels are written only after both the validation and the call
to `mlerp` have succeeded. -/
def mlerp_inplace (self endc : Color) (t : ℚ) : Except Err Unit × Color :=
  match find_invalid_percentage_range t .tT with
  | .error e => (.error e, self)
  | .ok _ =>
    match mlerp self endc t with
    | .error e => (.error e, self)
    | .ok result => (.ok (), ⟨result.r, result.g, result.b, result.a⟩)

/-- `Color::clerp_inplace` (src/color/mod.rs lines 269-276), state-passing:
the receiver's channels are written only after `clerp` has succeeded. -/
def clerp_inplace (cosf sinf : ℚ → ℚ) (lchOf : Color → ℚ × ℚ × ℕ)
    (self endc : Color) (t : ℚ) : Except Err Unit × Color :=
  match clerp cosf sinf lchOf self endc t with
  | .error e => (.error e, self)
  | .ok result => (.ok (), ⟨result.r, result.g, result.b, result.a⟩)

/-- C10: the in-place interpolation operations are atomic on error — when
`mlerp_inplace` or `clerp_inplace` returns an error, the receiver is left
unchanged, for every endpoint, every t, and (for clerp) every model of the
trigonometric functions and of the LCH conversion. -/
theorem inplace_error_atomicity (self endc : Color) (t : ℚ) :
    (∀ err : Err, (mlerp_inplace self endc t).1 = .error err →
      (mlerp_inplace self endc t).2 = self) ∧
    (∀ (cosf sinf : ℚ → ℚ) (lchOf : Color → ℚ × ℚ × ℕ) (err : Err),
      (clerp_inplace cosf sinf lchOf self endc t).1 = .error err →
      (clerp_inplace cosf sinf lchOf self endc t).2 = self) := by
  constructor
  · intro err
    unfold mlerp_inplace
    cases h1 : find_invalid_percentage_range t .tT with
    | error e => intro _; rfl
    | ok u =>
      cases h2 : mlerp self endc t with
      | error e => intro _; rfl
      | ok result => intro hcontra; simp at hcontra
  · intro cosf sinf lchOf err
    unfold clerp_inplace
    cases h1 : clerp cosf sinf lchOf self endc t with
    | error e => intro _; rfl
    | ok result => intro hcontra; simp at hcontra

/-- Witness for C10: at t = 2 the validation fails, and the receiver
`Color 1 2 3 4` is returned unchanged by both in-place operations. -/
theorem inplace_error_atomicity_witness :
    (mlerp_inplace ⟨1, 2, 3, 4⟩ ⟨5, 6, 7, 8⟩ 2).2 = ⟨1, 2, 3, 4⟩ ∧
    (clerp_inplace (fun q => q) (fun q => q) (fun _ => (0, 0, 0))
      ⟨1, 2, 3, 4⟩ ⟨5, 6, 7, 8⟩ 2).2 = ⟨1, 2, 3, 4⟩ :=
  ⟨(inplace_error_atomicity ⟨1, 2, 3, 4⟩ ⟨5, 6, 7, 8⟩ 2).1
      (.invalidRange .tT) (by norm_num [mlerp_inplace, find_invalid_percentage_range]),
   (inplace_error_atomicity ⟨1, 2, 3, 4⟩ ⟨5, 6, 7, 8⟩ 2).2
      (fun q => q) (fun q => q) (fun _ => (0, 0, 0)) (.invalidRange .tT)
      (by norm_num [clerp_inplace, clerp, find_invalid_percentage_range])⟩

end Tincture
